import Mathlib

/-!
# Verification of the `rst` native extension (nxtlo/Fated)

Shallow embedding of `src/rst/src/lib.rs` and `src/rst/src/imple/time.rs`.

The crate's three exported functions are thin wrappers:

* `from_duration(secs: usize, nanos: u32)` builds `std::time::Duration::new(secs, nanos)`
  and delegates to `humantime::format_duration`;
* `to_iso(stamp: u64)` delegates to `humantime::format_rfc3339(UNIX_EPOCH + stamp)`;
* `sum(a: usize, b: usize)` returns `a + b`.

Machine integers are embedded as `Nat` (all involved Rust types are unsigned),
with explicit range hypotheses (`< 2^64`, `< 2^32`) where overflow matters.
The `i64` arithmetic inside humantime's date conversion is embedded as `Int`
with `Int.tdiv` / `Int.tmod`, which have exactly Rust's truncated `/` / `%`
semantics.  A Rust panic (e.g. `to_string` on a `Display` impl returning
`fmt::Error`, or overflow in `Duration::new`) is embedded as `Option.none`.

The bodies of the delegated-to library functions
(`humantime::format_duration`, `humantime::format_rfc3339`,
`std::time::Duration::new`) are not part of the repository; they are embedded
here from the corresponding upstream sources (humantime `src/duration.rs` and
`src/date.rs`, which uses the musl `__secs_to_tm` algorithm; Rust `std`
`time.rs`) so that the wrappers' observable behaviour can be settled.
-/

namespace Rst

/-! ## humantime `format_duration` (upstream `src/duration.rs`) -/

/-- Model of humantime's `item` helper: append `"<value><name>"` to the
output, preceded by a space if something was already written; do nothing
when `value == 0`.  The accumulator is the `(started, buffer)` pair of the
Rust code (a `&mut bool` flag plus the formatter's output). -/
def item (acc : Bool × String) (name : String) (value : Nat) : Bool × String :=
  if 0 < value then
    (true, (if acc.1 then acc.2 ++ " " else acc.2) ++ toString value ++ name)
  else acc

/-- Model of humantime's `item_plural` helper: like `item` but appends a
trailing `"s"` when `value > 1`. -/
def item_plural (acc : Bool × String) (name : String) (value : Nat) : Bool × String :=
  if 0 < value then
    (true, (if acc.1 then acc.2 ++ " " else acc.2) ++ toString value ++ name ++
      (if 1 < value then "s" else ""))
  else acc

/-- Model of `humantime::format_duration` (the `Display` impl of
`FormattedDuration`), for a duration of `secs` whole seconds plus `nanos`
subsecond nanoseconds (`nanos < 10^9`, as guaranteed by `Duration`). -/
def format_duration (secs nanos : Nat) : String :=
  if secs = 0 ∧ nanos = 0 then "0s"
  else
    let ydays := secs % 31557600
    let mdays := ydays % 2630016
    let day_secs := mdays % 86400
    let acc0 : Bool × String := (false, "")
    let acc1 := item_plural acc0 "year" (secs / 31557600)
    let acc2 := item_plural acc1 "month" (ydays / 2630016)
    let acc3 := item_plural acc2 "day" (mdays / 86400)
    let acc4 := item acc3 "h" (day_secs / 3600)
    let acc5 := item acc4 "m" (day_secs % 3600 / 60)
    let acc6 := item acc5 "s" (day_secs % 60)
    let acc7 := item acc6 "ms" (nanos / 1000000)
    let acc8 := item acc7 "us" (nanos / 1000 % 1000)
    let acc9 := item acc8 "ns" (nanos % 1000)
    acc9.2

/-! ## humantime `format_rfc3339` (upstream `src/date.rs`, musl algorithm) -/

/-- Month lengths used by the musl civil-date algorithm, starting at March
(so the leap day, Feb 29, comes last). -/
def monthLens : List Int := [31, 30, 31, 30, 31, 31, 30, 31, 30, 31, 31, 29]

/-- Model of the month-finding `for` loop of musl's `__secs_to_tm` as used in
humantime's `fmt_rfc3339`: `mon` is incremented for each month, and the loop
breaks as soon as `remdays` is smaller than the current month length,
otherwise the month length is subtracted. -/
def monthLoop : List Int → Int → Int → Int × Int
  | [], mon, remdays => (mon, remdays)
  | len :: rest, mon, remdays =>
    if remdays < len then (mon + 1, remdays)
    else monthLoop rest (mon + 1) (remdays - len)

/-- First stage of the civil-date computation: 400-year cycles.
`qc_cycles = days / DAYS_PER_400Y`, `remdays = days % DAYS_PER_400Y`
(truncated i64 division), followed by the `remdays < 0` adjustment. -/
def step400 (days : Int) : Int × Int :=
  let qc := days.tdiv (365 * 400 + 97)
  let r := days.tmod (365 * 400 + 97)
  if r < 0 then (qc - 1, r + (365 * 400 + 97)) else (qc, r)

/-- The repeated pattern `c = r / per; if c == cap { c -= 1 }; r -= c * per`
of the musl algorithm (used with `per/cap` equal to `36524/4`, `1461/25`
and `365/4`). -/
def capped_div (r per cap : Int) : Int × Int :=
  let c0 := r.tdiv per
  if c0 = cap then (c0 - 1, r - (c0 - 1) * per) else (c0, r - c0 * per)

/-- Year computation of musl's `__secs_to_tm`: decompose the day count
(relative to the leapoch 2000-03-01) into 400/100/4/1-year cycles.  Returns
the year (before the January/February adjustment) and the remaining days
within the year (counted from March 1). -/
def yearCalc (days : Int) : Int × Int :=
  let s1 := step400 days
  let s2 := capped_div s1.2 (365 * 100 + 24) 4
  let s3 := capped_div s2.2 (365 * 4 + 1) 25
  let s4 := capped_div s3.2 365 4
  (2000 + s4.1 + 4 * s3.1 + 100 * s2.1 + 400 * s1.1, s4.2)

/-- Civil date `(year, month, day-of-month)` from a day count relative to the
leapoch, exactly as computed in humantime's `fmt_rfc3339`: year cycles, the
month loop over `monthLens`, `mday = remdays + 1`, and the final shift that
maps the March-based month index to a calendar month (with `year + 1` for
January and February). -/
def civilFromDays (days : Int) : Int × Int × Int :=
  let yr := yearCalc days
  let ml := monthLoop monthLens 0 yr.2
  let mday := ml.2 + 1
  if ml.1 + 2 > 12 then (yr.1 + 1, ml.1 - 10, mday) else (yr.1, ml.1 + 2, mday)

/-- The ASCII digit character `b'0' + n`. -/
def digit (n : Nat) : Char := Char.ofNat (48 + n)

/-- The ASCII digit character for an `i64` value (`b'0' + (x as u8)` in the
Rust code; all values written by the formatter are in `0..=9`). -/
def idigit (n : Int) : Char := digit n.toNat

/-- The 20 bytes `YYYY-MM-DDTHH:MM:SSZ` written into humantime's buffer
(`buf[..19]` plus the `'Z'` that seconds precision appends), with exactly the
digit computations of the Rust code. -/
def rfc3339Chars (year mon mday : Int) (sod : Nat) : List Char :=
  [idigit (year.tdiv 1000), idigit ((year.tdiv 100).tmod 10),
   idigit ((year.tdiv 10).tmod 10), idigit (year.tmod 10), '-',
   idigit (mon.tdiv 10), idigit (mon.tmod 10), '-',
   idigit (mday.tdiv 10), idigit (mday.tmod 10), 'T',
   digit (sod / 3600 / 10), digit (sod / 3600 % 10), ':',
   digit (sod / 60 / 10 % 6), digit (sod / 60 % 10), ':',
   digit (sod / 10 % 6), digit (sod % 10), 'Z']

/-- Model of `humantime::format_rfc3339(UNIX_EPOCH + secs).to_string()` for a
whole-second timestamp (smart precision prints no fractional part when the
nanosecond field is zero).  For `secs ≥ 253402300800` (year 10000) the
`Display` impl returns `fmt::Error`, on which `to_string` panics: embedded as
`none`. -/
def format_rfc3339 (secs_since_epoch : Nat) : Option String :=
  if 253402300800 ≤ secs_since_epoch then none
  else
    let c := civilFromDays (((secs_since_epoch / 86400 : Nat) : Int) - 11017)
    some (String.mk (rfc3339Chars c.1 c.2.1 c.2.2 (secs_since_epoch % 86400)))

/-! ## `src/rst/src/imple/time.rs` -/

/-- `duration_to_humatime` from `src/rst/src/imple/time.rs`: delegate to
`humantime::format_duration` (the `.clone()` of the resulting string is a
no-op).  A duration is its `(as_secs, subsec_nanos)` pair. -/
def duration_to_humatime (dur : Nat × Nat) : String := format_duration dur.1 dur.2

/-- `timestamp_to_iso` from `src/rst/src/imple/time.rs`, including its dead
defensive branch `if let None = Some(stamp) { stamp = 0 }`. -/
def timestamp_to_iso (stamp : Nat) : Option String :=
  let stamp := if (some stamp : Option Nat) = none then 0 else stamp
  format_rfc3339 stamp

/-! ## `src/rst/src/lib.rs` -/

/-- Model of `std::time::Duration::new(secs, nanos)`: excess nanoseconds are
carried into the seconds; overflow of the (u64) seconds panics (`none`). -/
def durationNew (secs nanos : Nat) : Option (Nat × Nat) :=
  if secs + nanos / 1000000000 < 2 ^ 64 then
    some (secs + nanos / 1000000000, nanos % 1000000000)
  else none

/-- `from_duration` from `src/rst/src/lib.rs`, including its dead defensive
branch `if let None = Some(nanos) { nanos = 0 }`.  `none` models a panic of
`Duration::new`; on success the function returns `Ok` of the formatted
string. -/
def from_duration (secs nanos : Nat) : Option String :=
  let nanos := if (some nanos : Option Nat) = none then 0 else nanos
  (durationNew secs nanos).map duration_to_humatime

/-- `to_iso` from `src/rst/src/lib.rs`: `Ok(timestamp_to_iso(stamp))`. -/
def to_iso (stamp : Nat) : Option String := timestamp_to_iso stamp

/-- `sum` from `src/rst/src/lib.rs`: `a + b` on `usize` (64-bit target).
Rust wraps on overflow in release builds (and panics in debug builds); the
claims about `sum` only concern non-overflowing inputs, where both behaviours
agree with `a + b`. -/
def sum (a b : Nat) : Nat := (a + b) % 2 ^ 64

/-- Model of the pyo3 call boundary of `#[pyfunction] fn from_duration(secs:
usize, mut nanos: u32)`: `nanos` is declared as a plain `u32` (not
`Option<u32>`, and no default is registered), so pyo3 treats it as a required
positional argument and a Python call that omits it raises `TypeError`
before the function body runs. -/
def from_duration_boundary (secs : Nat) (nanos : Option Nat) : Except String (Option String) :=
  match nanos with
  | none => Except.error "TypeError: from_duration missing required positional argument: nanos"
  | some n => Except.ok (from_duration secs n)

/-! ## Specification-side descriptions used to state the claims -/

/-- The nine units of `format_duration`, largest to smallest, each with its
magnitude for the given duration, its name, and whether it is pluralized. -/
def durationUnits (secs nanos : Nat) : List (Nat × String × Bool) :=
  [(secs / 31557600, "year", true),
   (secs % 31557600 / 2630016, "month", true),
   (secs % 31557600 % 2630016 / 86400, "day", true),
   (secs % 31557600 % 2630016 % 86400 / 3600, "h", false),
   (secs % 31557600 % 2630016 % 86400 % 3600 / 60, "m", false),
   (secs % 31557600 % 2630016 % 86400 % 60, "s", false),
   (nanos / 1000000, "ms", false),
   (nanos / 1000 % 1000, "us", false),
   (nanos % 1000, "ns", false)]

/-- Render one unit as it appears in the output: magnitude, then unit name,
then `"s"` for a pluralized unit of magnitude `> 1`. -/
def renderUnit (u : Nat × String × Bool) : String :=
  toString u.1 ++ u.2.1 ++ (if u.2.2 = true ∧ 1 < u.1 then "s" else "")

/-- The tokens of the formatted duration: the units of nonzero magnitude, in
largest-to-smallest order. -/
def durationTokens (secs nanos : Nat) : List String :=
  ((durationUnits secs nanos).filter fun u => 0 < u.1).map renderUnit

/-- Join tokens with single spaces. -/
def spaceJoin : List String → String
  | [] => ""
  | t :: ts => ts.foldl (fun a b => a ++ " " ++ b) t

/-- Decidable check that a string has exactly the shape
`YYYY-MM-DDTHH:MM:SSZ`: 20 characters, ASCII digits in the date/time
positions and the literal separators `-`, `T`, `:`, `Z`. -/
def rfc3339Shape (s : String) : Bool :=
  match s.data with
  | [y1, y2, y3, y4, s1, m1, m2, s2, d1, d2, s3, h1, h2, s4, n1, n2, s5, e1, e2, s6] =>
    y1.isDigit && y2.isDigit && y3.isDigit && y4.isDigit && (s1 == '-') &&
    m1.isDigit && m2.isDigit && (s2 == '-') &&
    d1.isDigit && d2.isDigit && (s3 == 'T') &&
    h1.isDigit && h2.isDigit && (s4 == ':') &&
    n1.isDigit && n2.isDigit && (s5 == ':') &&
    e1.isDigit && e2.isDigit && (s6 == 'Z')
  | _ => false

/-- The calls a host-language user can make through the module boundary
(`#[pymodule] fn rst` registers exactly `sum`, `from_duration`, `to_iso`). -/
inductive Call where
  | duration (secs nanos : Nat)
  | iso (stamp : Nat)
  | add (a b : Nat)

/-- The result of one call: a string for the two formatters, a number for
`sum`; `none` models a panic. -/
def execCall : Call → Option (String ⊕ Nat)
  | Call.duration s n => (from_duration s n).map Sum.inl
  | Call.iso t => (to_iso t).map Sum.inl
  | Call.add a b => some (Sum.inr (sum a b))

/-- Run a sequence of calls, collecting each call's result in order.  The
functions keep no state, so the run is just the list of per-call results. -/
def runCalls : List Call → List (Option (String ⊕ Nat))
  | [] => []
  | c :: cs => execCall c :: runCalls cs

end Rst

namespace Rst

/-! ## Basic unfolding helpers -/

/-- The defensive `if let None = Some(stamp)` check inside `timestamp_to_iso`
reduces away: the scrutinee is always `Some`. -/
theorem timestamp_to_iso_eq (t : Nat) : timestamp_to_iso t = format_rfc3339 t := rfl

theorem to_iso_eq (t : Nat) : to_iso t = format_rfc3339 t := rfl

/-- The defensive `if let None = Some(nanos)` check inside `from_duration`
reduces away as well. -/
theorem from_duration_eq (s n : Nat) :
    from_duration s n = (durationNew s n).map duration_to_humatime := rfl

/-- `Int.tmod` is bounded below by `-b` for a positive modulus `b`
(the missing companion of `Int.tmod_lt_of_pos`). -/
theorem tmod_lower_bound (a : Int) {b : Int} (hb : 0 < b) : -b < a.tmod b := by
  rcases Int.lt_or_le a 0 with ha | ha
  · obtain ⟨m, rfl⟩ := Int.eq_negSucc_of_lt_zero ha
    obtain ⟨k, rfl⟩ : ∃ k : Nat, b = (k : Int) :=
      ⟨b.toNat, (Int.toNat_of_nonneg (Int.le_of_lt hb)).symm⟩
    have hk : 0 < k := by exact_mod_cast hb
    have hred : Int.tmod (Int.negSucc m) (k : Int) = -(((m + 1) % k : Nat) : Int) := rfl
    rw [hred]
    have hmk : (m + 1) % k < k := Nat.mod_lt (m + 1) hk
    omega
  · have h0 : (0 : Int) ≤ a.tmod b := Int.tmod_nonneg b ha
    omega

end Rst

namespace Rst

/-! ## Claim theorems: concrete examples and simple wrappers -/

/-- C1: `to_iso(0)` returns exactly `"1970-01-01T00:00:00Z"`, and
`to_iso(31536000)` returns exactly `"1971-01-01T00:00:00Z"` (one non-leap
year after epoch). -/
theorem to_iso_epoch_examples :
    to_iso 0 = some "1970-01-01T00:00:00Z" ∧
    to_iso 31536000 = some "1971-01-01T00:00:00Z" := by
  constructor <;> rfl

/-- C4: `from_duration(0, 0)` returns the zero-duration string `"0s"`, and
`from_duration(3661, 0)` returns `"1h 1m 1s"`. -/
theorem from_duration_examples :
    from_duration 0 0 = some "0s" ∧
    from_duration 3661 0 = some "1h 1m 1s" := by
  constructor <;> rfl

/-- C5: for non-negative integers whose mathematical sum is representable
(fits in the 64-bit `usize`), `sum(a, b)` equals `a + b`, and `sum` is
commutative. -/
theorem sum_correct_and_commutative (a b : Nat) (h : a + b < 2 ^ 64) :
    sum a b = a + b ∧ sum a b = sum b a := by
  unfold sum
  exact ⟨Nat.mod_eq_of_lt h, by rw [Nat.add_comm]⟩

/-- Witness for C5 at `a = 2`, `b = 3`. -/
theorem sum_correct_and_commutative_witness :
    sum 2 3 = 2 + 3 ∧ sum 2 3 = sum 3 2 :=
  sum_correct_and_commutative 2 3 (by decide)

/-- C6 (code bug): at the pyo3 call boundary the `nanos` argument of
`from_duration` is required, not optional — a call omitting it raises
`TypeError` instead of defaulting to zero; the in-body defensive check that
was meant to default a missing value can never fire (its scrutinee is
`Some(nanos)`).  An explicit `nanos = 0` gives the behaviour the spec
describes as the default. -/
theorem from_duration_nanos_required :
    from_duration_boundary 5 none =
      Except.error "TypeError: from_duration missing required positional argument: nanos" ∧
    from_duration_boundary 5 (some 0) = Except.ok (from_duration 5 0) :=
  ⟨rfl, rfl⟩

/-- C7: the optional-check on the timestamp inside `timestamp_to_iso` is a
no-op — the `None` branch never executes and the substitute-zero policy never
changes a result, so `to_iso(t)` is always the RFC 3339 formatting of
`UNIX_EPOCH + t` seconds. -/
theorem timestamp_check_noop (t : Nat) :
    timestamp_to_iso t = format_rfc3339 t ∧ to_iso t = format_rfc3339 t :=
  ⟨timestamp_to_iso_eq t, to_iso_eq t⟩

end Rst

namespace Rst

/-- The result of a call in a run is its `execCall` value, wherever the call
sits in the sequence. -/
theorem runCalls_get (pre rest : List Call) (c : Call) :
    (runCalls (pre ++ c :: rest))[pre.length]? = some (execCall c) := by
  induction pre with
  | nil => simp [runCalls]
  | cons d pre ih =>
    simpa only [List.cons_append, runCalls, List.length_cons,
      List.getElem?_cons_succ] using ih

/-- C9: the three operations are deterministic and stateless — the result of
a call is `execCall` of its inputs alone, so two calls with identical inputs
give identical results no matter which calls run before or between them. -/
theorem calls_independent (pre1 rest1 pre2 rest2 : List Call) (c : Call) :
    (runCalls (pre1 ++ c :: rest1))[pre1.length]? = some (execCall c) ∧
    (runCalls (pre1 ++ c :: rest1))[pre1.length]? =
      (runCalls (pre2 ++ c :: rest2))[pre2.length]? := by
  rw [runCalls_get, runCalls_get]
  exact ⟨rfl, rfl⟩

/-- C10: excess nanoseconds (`n ≥ 10^9`, up to the u32 maximum) do not make
`from_duration` fail: `Duration::new` carries them into whole seconds, so the
call agrees with `from_duration(s + n / 10^9, n % 10^9)`. -/
theorem from_duration_normalizes (s n : Nat) (h1 : n < 2 ^ 32) (h2 : 1000000000 ≤ n)
    (h3 : s + n / 1000000000 < 2 ^ 64) :
    from_duration s n = from_duration (s + n / 1000000000) (n % 1000000000) ∧
    (from_duration s n).isSome = true := by
  have e1 : n % 1000000000 / 1000000000 = 0 := by omega
  have e2 : n % 1000000000 % 1000000000 = n % 1000000000 := by omega
  rw [from_duration_eq, from_duration_eq]
  unfold durationNew
  rw [e1, e2, if_pos h3, if_pos (by omega : s + n / 1000000000 + 0 < 2 ^ 64)]
  constructor
  · simp
  · rfl

/-- Witness for C10 at `s = 1`, `n = 1.5·10^9` (normalizing to 2 s, 5·10^8 ns). -/
theorem from_duration_normalizes_witness :
    from_duration 1 1500000000 = from_duration (1 + 1500000000 / 1000000000) (1500000000 % 1000000000) ∧
    (from_duration 1 1500000000).isSome = true :=
  from_duration_normalizes 1 1500000000 (by decide) (by decide) (by decide)

/-- C8: each exposed operation is total over its documented input domain:
`from_duration` succeeds for every `usize` second count and in-range
nanosecond count, `to_iso` succeeds for every timestamp within the
representable date range (year ≤ 9999), and `sum` returns the mathematical
sum whenever it is representable. -/
theorem operations_total :
    (∀ s n : Nat, s < 2 ^ 64 → n < 1000000000 → (from_duration s n).isSome = true) ∧
    (∀ t : Nat, t < 253402300800 → (to_iso t).isSome = true) ∧
    (∀ a b : Nat, a + b < 2 ^ 64 → sum a b = a + b) := by
  refine ⟨fun s n hs hn => ?_, fun t ht => ?_, fun a b h => Nat.mod_eq_of_lt h⟩
  · rw [from_duration_eq]
    unfold durationNew
    rw [if_pos (by omega : s + n / 1000000000 < 2 ^ 64)]
    rfl
  · rw [to_iso_eq]
    unfold format_rfc3339
    rw [if_neg (by omega : ¬ 253402300800 ≤ t)]
    rfl

/-- Witness for C8 at concrete inputs. -/
theorem operations_total_witness :
    (from_duration 1 2).isSome = true ∧ (to_iso 3).isSome = true ∧ sum 2 2 = 2 + 2 :=
  ⟨operations_total.1 1 2 (by decide) (by decide),
   operations_total.2.1 3 (by decide),
   operations_total.2.2 2 2 (by decide)⟩

/-- C2 counterexample: at `t = 253402300800` (midnight of year 10000) the
code does not return a pattern-shaped string at all: humantime's `Display`
impl returns `fmt::Error` and `to_string` panics (`none` in this embedding).
So `to_iso` does not match `YYYY-MM-DDTHH:MM:SSZ` for *every* u64 value. -/
theorem to_iso_year10000_counterexample :
    ¬ ∃ s, to_iso 253402300800 = some s ∧ rfc3339Shape s = true := by
  intro h
  obtain ⟨s, hs, _⟩ := h
  have hn : to_iso 253402300800 = none := rfl
  rw [hn] at hs
  cases hs

end Rst

namespace Rst

/-- `step400` computes the Euclidean decomposition of the day count by the
length of a 400-year cycle (146097 days). -/
theorem step400_spec (D : Int) :
    ∃ qc r, step400 D = (qc, r) ∧ D = (365 * 400 + 97) * qc + r ∧
      0 ≤ r ∧ r < 365 * 400 + 97 := by
  have hb : (0 : Int) < 365 * 400 + 97 := by norm_num
  have hadd := Int.tdiv_add_tmod D (365 * 400 + 97)
  have hup := Int.tmod_lt_of_pos D hb
  have hlow := tmod_lower_bound D hb
  simp only [step400]
  split
  · exact ⟨_, _, rfl, by omega, by omega, by omega⟩
  · exact ⟨_, _, rfl, by omega, by omega, by omega⟩

/-- The 100-year stage: on `0 ≤ r < 146097` the capped division by 36524
yields at most 3 centuries and at most 36524 remaining days. -/
theorem capped_div_spec100 (r : Int) (h0 : 0 ≤ r) (h1 : r < 146097) :
    ∃ c r2, capped_div r (365 * 100 + 24) 4 = (c, r2) ∧
      r = (365 * 100 + 24) * c + r2 ∧ 0 ≤ c ∧ c ≤ 3 ∧ 0 ≤ r2 ∧ r2 ≤ 36524 := by
  have hb : (0 : Int) < 365 * 100 + 24 := by norm_num
  have hadd := Int.tdiv_add_tmod r (365 * 100 + 24)
  have hup := Int.tmod_lt_of_pos r hb
  have hlow : (0 : Int) ≤ r.tmod (365 * 100 + 24) := Int.tmod_nonneg _ h0
  simp only [capped_div]
  split
  · rename_i hc
    exact ⟨_, _, rfl, by omega, by omega, by omega, by omega, by omega⟩
  · rename_i hc
    exact ⟨_, _, rfl, by omega, by omega, by omega, by omega, by omega⟩

/-- The 4-year stage: on `0 ≤ r ≤ 36524` the capped division by 1461 yields
at most 24 four-year cycles and at most 1460 remaining days. -/
theorem capped_div_spec4 (r : Int) (h0 : 0 ≤ r) (h1 : r ≤ 36524) :
    ∃ q r2, capped_div r (365 * 4 + 1) 25 = (q, r2) ∧
      r = (365 * 4 + 1) * q + r2 ∧ 0 ≤ q ∧ q ≤ 24 ∧ 0 ≤ r2 ∧ r2 ≤ 1460 := by
  have hb : (0 : Int) < 365 * 4 + 1 := by norm_num
  have hadd := Int.tdiv_add_tmod r (365 * 4 + 1)
  have hup := Int.tmod_lt_of_pos r hb
  have hlow : (0 : Int) ≤ r.tmod (365 * 4 + 1) := Int.tmod_nonneg _ h0
  simp only [capped_div]
  split
  · rename_i hc
    exact ⟨_, _, rfl, by omega, by omega, by omega, by omega, by omega⟩
  · rename_i hc
    exact ⟨_, _, rfl, by omega, by omega, by omega, by omega, by omega⟩

/-- The 1-year stage: on `0 ≤ r ≤ 1460` the capped division by 365 yields at
most 3 years and at most 365 remaining days. -/
theorem capped_div_spec1 (r : Int) (h0 : 0 ≤ r) (h1 : r ≤ 1460) :
    ∃ y r2, capped_div r 365 4 = (y, r2) ∧
      r = 365 * y + r2 ∧ 0 ≤ y ∧ y ≤ 3 ∧ 0 ≤ r2 ∧ r2 ≤ 365 := by
  have hb : (0 : Int) < 365 := by norm_num
  have hadd := Int.tdiv_add_tmod r 365
  have hup := Int.tmod_lt_of_pos r hb
  have hlow : (0 : Int) ≤ r.tmod 365 := Int.tmod_nonneg _ h0
  simp only [capped_div]
  split
  · rename_i hc
    exact ⟨_, _, rfl, by omega, by omega, by omega, by omega, by omega⟩
  · rename_i hc
    exact ⟨_, _, rfl, by omega, by omega, by omega, by omega, by omega⟩

end Rst

namespace Rst

/-- Bounds for the year computation on the day range reachable from a `u64`
timestamp below the year-10000 cutoff: the (March-based) year is between 0
and 9999, the remaining day count is at most 365, and a remaining day count
pointing into January/February (≥ 306) can only occur for a year ≤ 9998, so
the later `year + 1` adjustment cannot overflow four digits. -/
theorem yearCalc_spec (D : Int) (hlo : -11017 ≤ D) (hhi : D ≤ 2921879) :
    ∃ y R, yearCalc D = (y, R) ∧ 0 ≤ y ∧ y ≤ 9999 ∧ 0 ≤ R ∧ R ≤ 365 ∧
      (306 ≤ R → y ≤ 9998) := by
  obtain ⟨qc, r1, he1, hd1, hr1a, hr1b⟩ := step400_spec D
  obtain ⟨c, r2, he2, hd2, hc0, hc3, hr2a, hr2b⟩ := capped_div_spec100 r1 hr1a (by omega)
  obtain ⟨q, r3, he3, hd3, hq0, hq24, hr3a, hr3b⟩ := capped_div_spec4 r2 hr2a hr2b
  obtain ⟨ry, r4, he4, hd4, hry0, hry3, hr4a, hr4b⟩ := capped_div_spec1 r3 hr3a hr3b
  refine ⟨2000 + ry + 4 * q + 100 * c + 400 * qc, r4, ?_, by omega, by omega, by omega,
    by omega, fun h306 => by omega⟩
  simp only [yearCalc, he1]
  simp only [he2]
  simp only [he3]
  simp only [he4]

end Rst

namespace Rst

/-- The month loop on a remaining day count in `0..=365` always breaks with a
month index in `1..=12` and a day remainder of at most 30; a January or
February result (index ≥ 11) needs at least 306 remaining days. -/
theorem monthLoop_spec (R : Int) (hR0 : 0 ≤ R) (hR1 : R ≤ 365) :
    ∃ m r, monthLoop monthLens 0 R = (m, r) ∧ 1 ≤ m ∧ m ≤ 12 ∧ 0 ≤ r ∧ r ≤ 30 ∧
      (11 ≤ m → 306 ≤ R) := by
  have key : 1 ≤ (monthLoop monthLens 0 R).1 ∧ (monthLoop monthLens 0 R).1 ≤ 12 ∧
      0 ≤ (monthLoop monthLens 0 R).2 ∧ (monthLoop monthLens 0 R).2 ≤ 30 ∧
      (11 ≤ (monthLoop monthLens 0 R).1 → 306 ≤ R) := by
    simp only [monthLens, monthLoop]
    by_cases c1 : R < 31
    · rw [if_pos c1]
      omega
    · rw [if_neg c1]
      by_cases c2 : R - 31 < 30
      · rw [if_pos c2]
        omega
      · rw [if_neg c2]
        by_cases c3 : R - 31 - 30 < 31
        · rw [if_pos c3]
          omega
        · rw [if_neg c3]
          by_cases c4 : R - 31 - 30 - 31 < 30
          · rw [if_pos c4]
            omega
          · rw [if_neg c4]
            by_cases c5 : R - 31 - 30 - 31 - 30 < 31
            · rw [if_pos c5]
              omega
            · rw [if_neg c5]
              by_cases c6 : R - 31 - 30 - 31 - 30 - 31 < 31
              · rw [if_pos c6]
                omega
              · rw [if_neg c6]
                by_cases c7 : R - 31 - 30 - 31 - 30 - 31 - 31 < 30
                · rw [if_pos c7]
                  omega
                · rw [if_neg c7]
                  by_cases c8 : R - 31 - 30 - 31 - 30 - 31 - 31 - 30 < 31
                  · rw [if_pos c8]
                    omega
                  · rw [if_neg c8]
                    by_cases c9 : R - 31 - 30 - 31 - 30 - 31 - 31 - 30 - 31 < 30
                    · rw [if_pos c9]
                      omega
                    · rw [if_neg c9]
                      by_cases c10 : R - 31 - 30 - 31 - 30 - 31 - 31 - 30 - 31 - 30 < 31
                      · rw [if_pos c10]
                        omega
                      · rw [if_neg c10]
                        by_cases c11 : R - 31 - 30 - 31 - 30 - 31 - 31 - 30 - 31 - 30 - 31 < 31
                        · rw [if_pos c11]
                          omega
                        · rw [if_neg c11]
                          by_cases c12 : R - 31 - 30 - 31 - 30 - 31 - 31 - 30 - 31 - 30 - 31 - 31 < 29
                          · rw [if_pos c12]
                            omega
                          · rw [if_neg c12]
                            omega
  exact ⟨_, _, rfl, key.1, key.2.1, key.2.2.1, key.2.2.2.1, key.2.2.2.2⟩

end Rst

namespace Rst

/-- Bounds for the civil date produced from any day count reachable from a
`u64` timestamp below the year-10000 cutoff. -/
theorem civilFromDays_spec (D : Int) (hlo : -11017 ≤ D) (hhi : D ≤ 2921879) :
    ∃ y m d, civilFromDays D = (y, m, d) ∧ 0 ≤ y ∧ y ≤ 9999 ∧
      1 ≤ m ∧ m ≤ 12 ∧ 1 ≤ d ∧ d ≤ 31 := by
  obtain ⟨y0, R, hy, hy0, hy9999, hR0, hR365, hRy⟩ := yearCalc_spec D hlo hhi
  obtain ⟨mo, r, hm, hm1, hm12, hr0, hr30, hmR⟩ := monthLoop_spec R hR0 hR365
  simp only [civilFromDays, hy]
  simp only [hm]
  by_cases hc : mo + 2 > 12
  · rw [if_pos hc]
    have h306 : 306 ≤ R := hmR (by omega)
    have hy98 : y0 ≤ 9998 := hRy h306
    exact ⟨_, _, _, rfl, by omega, by omega, by omega, by omega, by omega, by omega⟩
  · rw [if_neg hc]
    exact ⟨_, _, _, rfl, by omega, by omega, by omega, by omega, by omega, by omega⟩

/-- A `digit` of a value at most 9 is an ASCII digit character. -/
theorem digit_isDigit (n : Nat) (h : n ≤ 9) : (digit n).isDigit = true := by
  interval_cases n <;> decide

/-- An `idigit` of an integer at most 9 is an ASCII digit character (negative
values are clamped to 0 by `Int.toNat`). -/
theorem idigit_isDigit (v : Int) (h : v ≤ 9) : (idigit v).isDigit = true := by
  have hv : v.toNat ≤ 9 := by omega
  exact digit_isDigit _ hv

end Rst

namespace Rst

/-- The buffer of `fmt_rfc3339` has the `YYYY-MM-DDTHH:MM:SSZ` shape whenever
the date fields are in range (year up to 9999, month and day up to two
digits) and the second-of-day is in range. -/
theorem rfc3339Chars_shape (y m d : Int) (sod : Nat)
    (hy0 : 0 ≤ y) (hy : y ≤ 9999) (hm0 : 0 ≤ m) (hm : m ≤ 99)
    (hd0 : 0 ≤ d) (hd : d ≤ 99) (hs : sod < 86400) :
    rfc3339Shape (String.mk (rfc3339Chars y m d sod)) = true := by
  have g1 := Int.tdiv_add_tmod y 1000
  have g2 : (0 : Int) ≤ y.tmod 1000 := Int.tmod_nonneg _ hy0
  have g3 : y.tmod 1000 < 1000 := Int.tmod_lt_of_pos y (by norm_num)
  have g4 : (y.tdiv 100).tmod 10 < 10 := Int.tmod_lt_of_pos (y.tdiv 100) (by norm_num)
  have g5 : (y.tdiv 10).tmod 10 < 10 := Int.tmod_lt_of_pos (y.tdiv 10) (by norm_num)
  have g6 : y.tmod 10 < 10 := Int.tmod_lt_of_pos y (by norm_num)
  have g7 := Int.tdiv_add_tmod m 10
  have g8 : (0 : Int) ≤ m.tmod 10 := Int.tmod_nonneg _ hm0
  have g9 : m.tmod 10 < 10 := Int.tmod_lt_of_pos m (by norm_num)
  have g10 := Int.tdiv_add_tmod d 10
  have g11 : (0 : Int) ≤ d.tmod 10 := Int.tmod_nonneg _ hd0
  have g12 : d.tmod 10 < 10 := Int.tmod_lt_of_pos d (by norm_num)
  simp only [rfc3339Shape, rfc3339Chars]
  simp only [Bool.and_eq_true, beq_iff_eq, eq_self_iff_true, true_and, and_true]
  repeat' apply And.intro
  all_goals apply digit_isDigit
  all_goals omega

end Rst

namespace Rst

/-- C2 (amended): for every timestamp `t` below the year-10000 cutoff
`253402300800` enforced by humantime, `to_iso(t)` returns a string matching
the pattern `YYYY-MM-DDTHH:MM:SSZ`; for larger `u64` values the formatter
fails (see the counterexample), so the pattern guarantee holds on the
representable date range rather than on all of `u64`. -/
theorem to_iso_rfc3339_pattern (t : Nat) (h : t < 253402300800) :
    ∃ s, to_iso t = some s ∧ rfc3339Shape s = true := by
  have hdiv : t / 86400 ≤ 2932896 := by omega
  have hD1 : (-11017 : Int) ≤ ((t / 86400 : Nat) : Int) - 11017 := by omega
  have hD2 : ((t / 86400 : Nat) : Int) - 11017 ≤ 2921879 := by omega
  obtain ⟨y, m, d, hc, hy0, hy, hm1, hm12, hd1, hd31⟩ := civilFromDays_spec _ hD1 hD2
  have hsod : t % 86400 < 86400 := Nat.mod_lt _ (by norm_num)
  refine ⟨String.mk (rfc3339Chars y m d (t % 86400)), ?_, ?_⟩
  · rw [to_iso_eq]
    unfold format_rfc3339
    rw [if_neg (by omega : ¬ 253402300800 ≤ t)]
    rw [hc]
  · exact rfc3339Chars_shape y m d (t % 86400) hy0 hy (by omega) (by omega)
      (by omega) (by omega) hsod

/-- Witness for C2 at `t = 1600000000` (2020-09-13T12:26:40Z). -/
theorem to_iso_rfc3339_pattern_witness :
    ∃ s, to_iso 1600000000 = some s ∧ rfc3339Shape s = true :=
  to_iso_rfc3339_pattern 1600000000 (by decide)

end Rst

namespace Rst

/-- Appending one more token to a nonempty join inserts one space. -/
theorem spaceJoin_append_single (ts : List String) (x : String) (h : ts ≠ []) :
    spaceJoin (ts ++ [x]) = spaceJoin ts ++ " " ++ x := by
  match ts, h with
  | t :: ts, _ =>
    show spaceJoin (t :: (ts ++ [x])) = _
    simp only [spaceJoin, List.foldl_append, List.foldl_cons, List.foldl_nil]

/-- One write of humantime's formatter: if the `(started, buffer)` pair
represents a joined token list, writing one more item (with its leading
space when something was already written) represents the extended list. -/
theorem append_token_step (started : Bool) (buf : String) (toks : List String) (x : String)
    (h1 : started = true ↔ toks ≠ []) (h2 : buf = spaceJoin toks) :
    (if started then buf ++ " " else buf) ++ x = spaceJoin (toks ++ [x]) := by
  cases started with
  | true =>
    have hne : toks ≠ [] := h1.mp rfl
    rw [if_pos rfl, h2, spaceJoin_append_single toks x hne]
  | false =>
    have ht : toks = [] := by
      by_contra hne
      exact absurd (h1.mpr hne) (by simp)
    subst ht
    rw [if_neg (by simp), h2]
    show spaceJoin [] ++ x = spaceJoin [x]
    simp [spaceJoin]

/-- `item` preserves the joined-token-list representation, appending its
token exactly when the value is nonzero. -/
theorem item_step (acc : Bool × String) (toks : List String) (name : String) (v : Nat)
    (h1 : acc.1 = true ↔ toks ≠ []) (h2 : acc.2 = spaceJoin toks) :
    ((item acc name v).1 = true ↔ (toks ++ if 0 < v then [toString v ++ name] else []) ≠ []) ∧
      (item acc name v).2 = spaceJoin (toks ++ if 0 < v then [toString v ++ name] else []) := by
  by_cases hv : 0 < v
  · simp only [item, if_pos hv]
    constructor
    · simp
    · show (if acc.1 then acc.2 ++ " " else acc.2) ++ toString v ++ name = _
      rw [String.append_assoc]
      exact append_token_step acc.1 acc.2 toks (toString v ++ name) h1 h2
  · simp only [item, if_neg hv, List.append_nil]
    exact ⟨h1, h2⟩

/-- `item_plural` preserves the joined-token-list representation, appending
its (possibly pluralized) token exactly when the value is nonzero. -/
theorem item_plural_step (acc : Bool × String) (toks : List String) (name : String) (v : Nat)
    (h1 : acc.1 = true ↔ toks ≠ []) (h2 : acc.2 = spaceJoin toks) :
    ((item_plural acc name v).1 = true ↔
        (toks ++ if 0 < v then [toString v ++ name ++ (if 1 < v then "s" else "")] else []) ≠ []) ∧
      (item_plural acc name v).2 =
        spaceJoin (toks ++ if 0 < v then [toString v ++ name ++ (if 1 < v then "s" else "")] else []) := by
  by_cases hv : 0 < v
  · simp only [item_plural, if_pos hv]
    constructor
    · simp
    · show (if acc.1 then acc.2 ++ " " else acc.2) ++ toString v ++ name ++
          (if 1 < v then "s" else "") = _
      rw [← append_token_step acc.1 acc.2 toks
        (toString v ++ name ++ (if 1 < v then "s" else "")) h1 h2]
      simp [String.append_assoc]
  · simp only [item_plural, if_neg hv, List.append_nil]
    exact ⟨h1, h2⟩

/-- Mapping over a filtered list is the concatenation of per-element
singletons. -/
theorem map_filter_concat {α β : Type} (f : α → β) (q : α → Prop) [DecidablePred q] :
    ∀ l : List α, (l.filter fun a => decide (q a)).map f =
      l.foldr (fun a acc => (if q a then [f a] else []) ++ acc) [] := by
  intro l
  induction l with
  | nil => rfl
  | cons a l ih =>
    by_cases h : q a
    · simp [List.filter_cons, h, ih]
    · simp [List.filter_cons, h, ih]

end Rst

namespace Rst

/-- For a nonzero duration, `format_duration` is the space-join of its
nonzero unit tokens, in largest-to-smallest order. -/
theorem format_duration_spec (s n : Nat) (hz : ¬(s = 0 ∧ n = 0)) :
    format_duration s n = spaceJoin (durationTokens s n) := by
  have t0a : ((false, "") : Bool × String).1 = true ↔ ([] : List String) ≠ [] := by simp
  have t0b : ((false, "") : Bool × String).2 = spaceJoin [] := rfl
  have S1 := item_plural_step (false, "") [] "year" (s / 31557600) t0a t0b
  have S2 := item_plural_step _ _ "month" (s % 31557600 / 2630016) S1.1 S1.2
  have S3 := item_plural_step _ _ "day" (s % 31557600 % 2630016 / 86400) S2.1 S2.2
  have S4 := item_step _ _ "h" (s % 31557600 % 2630016 % 86400 / 3600) S3.1 S3.2
  have S5 := item_step _ _ "m" (s % 31557600 % 2630016 % 86400 % 3600 / 60) S4.1 S4.2
  have S6 := item_step _ _ "s" (s % 31557600 % 2630016 % 86400 % 60) S5.1 S5.2
  have S7 := item_step _ _ "ms" (n / 1000000) S6.1 S6.2
  have S8 := item_step _ _ "us" (n / 1000 % 1000) S7.1 S7.2
  have S9 := item_step _ _ "ns" (n % 1000) S8.1 S8.2
  have hfd : format_duration s n =
      (item (item (item (item (item (item
        (item_plural (item_plural (item_plural (false, "")
          "year" (s / 31557600))
          "month" (s % 31557600 / 2630016))
          "day" (s % 31557600 % 2630016 / 86400))
        "h" (s % 31557600 % 2630016 % 86400 / 3600))
        "m" (s % 31557600 % 2630016 % 86400 % 3600 / 60))
        "s" (s % 31557600 % 2630016 % 86400 % 60))
        "ms" (n / 1000000))
        "us" (n / 1000 % 1000))
        "ns" (n % 1000)).2 := by
    simp only [format_duration, if_neg hz]
  rw [hfd, S9.2]
  apply congrArg spaceJoin
  have mfc := map_filter_concat (β := String) renderUnit
    (fun u : Nat × String × Bool => 0 < u.1) (durationUnits s n)
  simp only [durationTokens]
  rw [mfc]
  simp [durationUnits, renderUnit, List.append_assoc]

end Rst

namespace Rst

/-- A nonzero duration has at least one nonzero unit: the unit magnitudes of
`format_duration` exactly decompose the seconds and the nanoseconds. -/
theorem durationTokens_ne_nil (s n : Nat) (hz : ¬(s = 0 ∧ n = 0)) :
    durationTokens s n ≠ [] := by
  intro hnil
  simp only [durationTokens] at hnil
  rw [List.map_eq_nil_iff, List.filter_eq_nil_iff] at hnil
  have u1 : ¬ (0 < s / 31557600) := by
    simpa using hnil (s / 31557600, "year", true) (by simp [durationUnits])
  have u2 : ¬ (0 < s % 31557600 / 2630016) := by
    simpa using hnil (s % 31557600 / 2630016, "month", true) (by simp [durationUnits])
  have u3 : ¬ (0 < s % 31557600 % 2630016 / 86400) := by
    simpa using hnil (s % 31557600 % 2630016 / 86400, "day", true) (by simp [durationUnits])
  have u4 : ¬ (0 < s % 31557600 % 2630016 % 86400 / 3600) := by
    simpa using hnil (s % 31557600 % 2630016 % 86400 / 3600, "h", false) (by simp [durationUnits])
  have u5 : ¬ (0 < s % 31557600 % 2630016 % 86400 % 3600 / 60) := by
    simpa using hnil (s % 31557600 % 2630016 % 86400 % 3600 / 60, "m", false)
      (by simp [durationUnits])
  have u6 : ¬ (0 < s % 31557600 % 2630016 % 86400 % 60) := by
    simpa using hnil (s % 31557600 % 2630016 % 86400 % 60, "s", false) (by simp [durationUnits])
  have u7 : ¬ (0 < n / 1000000) := by
    simpa using hnil (n / 1000000, "ms", false) (by simp [durationUnits])
  have u8 : ¬ (0 < n / 1000 % 1000) := by
    simpa using hnil (n / 1000 % 1000, "us", false) (by simp [durationUnits])
  have u9 : ¬ (0 < n % 1000) := by
    simpa using hnil (n % 1000, "ns", false) (by simp [durationUnits])
  omega

/-- The join never shrinks below its first token. -/
theorem foldl_length_ge (ts : List String) :
    ∀ t : String, t.length ≤ (ts.foldl (fun a b => a ++ " " ++ b) t).length := by
  induction ts with
  | nil => intro t; simp
  | cons x ts ih =>
    intro t
    have h := ih (t ++ " " ++ x)
    have hsp : (" " : String).length = 1 := rfl
    simp only [List.foldl_cons]
    have hx : t.length ≤ (t ++ " " ++ x).length := by
      simp only [String.length_append, hsp]
      omega
    omega

/-- Every rendered unit token is a nonempty string (its unit name is). -/
theorem renderUnit_length_pos (u : Nat × String × Bool) (hu : 0 < u.2.1.length) :
    0 < (renderUnit u).length := by
  simp only [renderUnit, String.length_append]
  omega

/-- All nine unit names have nonzero length. -/
theorem durationUnits_names_nonempty (s n : Nat) :
    ∀ u ∈ durationUnits s n, 0 < u.2.1.length := by
  intro u hu
  simp only [durationUnits, List.mem_cons, List.not_mem_nil, or_false] at hu
  rcases hu with h | h | h | h | h | h | h | h | h
  all_goals subst h
  all_goals dsimp only
  all_goals decide

/-- For a nonzero duration the formatted string is nonempty. -/
theorem spaceJoin_tokens_ne_empty (s n : Nat) (hz : ¬(s = 0 ∧ n = 0)) :
    spaceJoin (durationTokens s n) ≠ "" := by
  have hne := durationTokens_ne_nil s n hz
  obtain ⟨t, ts, ht⟩ := List.exists_cons_of_ne_nil hne
  have htok : t ∈ durationTokens s n := by
    rw [ht]
    exact List.mem_cons_self t ts
  obtain ⟨u, hu, hut⟩ := List.mem_map.mp (by simpa only [durationTokens] using htok)
  have hupos : 0 < (renderUnit u).length :=
    renderUnit_length_pos u (durationUnits_names_nonempty s n u (List.mem_of_mem_filter hu))
  have htpos : 0 < t.length := hut ▸ hupos
  have hlen : t.length ≤ (spaceJoin (t :: ts)).length := by
    simpa only [spaceJoin] using foldl_length_ge ts t
  rw [ht]
  intro hE
  have h0 : (spaceJoin (t :: ts)).length = 0 := by rw [hE]; rfl
  omega

/-- C3: for every second count `s` (any `usize`) and nanosecond count
`n < 10^9`, `from_duration(s, n)` returns a nonempty string that is exactly
the space-joined list of the recognized units of nonzero magnitude, ordered
largest to smallest — except that the zero duration yields `"0s"`. -/
theorem from_duration_structure (s n : Nat) (h1 : n < 1000000000) (h2 : s < 2 ^ 64) :
    ∃ str, from_duration s n = some str ∧ str ≠ "" ∧
      (s = 0 ∧ n = 0 → str = "0s") ∧
      (¬(s = 0 ∧ n = 0) → durationTokens s n ≠ [] ∧
        str = spaceJoin (durationTokens s n)) := by
  have e0 : n / 1000000000 = 0 := Nat.div_eq_of_lt h1
  have hfd : from_duration s n = some (format_duration s n) := by
    rw [from_duration_eq]
    unfold durationNew
    rw [e0, Nat.mod_eq_of_lt h1, if_pos (by omega)]
    rfl
  refine ⟨format_duration s n, hfd, ?_, ?_, ?_⟩
  · by_cases hz : s = 0 ∧ n = 0
    · rw [show format_duration s n = "0s" by simp only [format_duration, if_pos hz]]
      decide
    · rw [format_duration_spec s n hz]
      exact spaceJoin_tokens_ne_empty s n hz
  · intro hz
    simp only [format_duration, if_pos hz]
  · intro hz
    exact ⟨durationTokens_ne_nil s n hz, format_duration_spec s n hz⟩

/-- Witness for C3 at `s = 3661`, `n = 0`. -/
theorem from_duration_structure_witness :
    ∃ str, from_duration 3661 0 = some str ∧ str ≠ "" ∧
      (3661 = 0 ∧ 0 = 0 → str = "0s") ∧
      (¬(3661 = 0 ∧ 0 = 0) → durationTokens 3661 0 ≠ [] ∧
        str = spaceJoin (durationTokens 3661 0)) :=
  from_duration_structure 3661 0 (by decide) (by decide)

end Rst
